import Mathlib

/-
Verification of the live-transcription engine of the adlib repository
(src/src/transcription/mod.rs), via a shallow embedding in Lean 4.

Embedding conventions:
* f32 audio samples are modelled as rational numbers (ℚ).
* `calculate_rms` in the source returns `sqrt(sum_squares / len)` and is
  only ever used in order comparisons against nonnegative thresholds
  (0.04 pre-calibration, the stored VAD threshold) or fed, multiplied by
  3.0 and clamped below by 0.02, into the stored threshold.  Since
  `sqrt` is strictly monotone on nonnegatives, `rms < t ↔ rms² < t²`
  for `t ≥ 0` and `max(a,b)² = max(a²,b²)` for `a,b ≥ 0`; the embedding
  therefore carries squared RMS values and squared thresholds
  throughout (`calculate_rms_sq`, `vad_threshold_sq`), with the squared
  constants 0.04² = 1/625, 0.02² = 1/2500 and 3.0² = 9.
* The whisper inference call (`create_state` + `full` + segment
  extraction) is an external library, out of scope per the spec; it is
  modelled as an oracle parameter `List ℚ → Except String (List String)`
  returning the list of segment texts, or an error.
* Strings are processed over `List Char`; Rust `char::to_lowercase` /
  `is_alphabetic` / whitespace handling are modelled by the
  corresponding Lean `Char` functions (our inputs are ASCII).
-/

/-- Sample rate expected by Whisper (`LiveTranscriber::SAMPLE_RATE`). -/
def SAMPLE_RATE : Nat := 16000

/-- Process every 500 ms (`LiveTranscriber::STEP_SAMPLES = 500 * 16`). -/
def STEP_SAMPLES : Nat := 500 * 16

/-- Maximum buffer size, 30 s (`LiveTranscriber::MAX_BUFFER_SAMPLES`). -/
def MAX_BUFFER_SAMPLES : Nat := 30 * 16000

/-- Calibration duration in samples, 3 s (`LiveTranscriber::CALIBRATION_SAMPLES`). -/
def CALIBRATION_SAMPLES : Nat := 3 * 16000

/-- Chunk size for checking quietness, 100 ms (`CALIBRATION_CHUNK_SAMPLES`). -/
def CALIBRATION_CHUNK_SAMPLES : Nat := 1600

/-- Square of the fixed pre-calibration quiet threshold 0.04. -/
def PRE_CALIBRATION_QUIET_THRESHOLD_SQ : ℚ := 1 / 625

/-- Square of the minimum VAD threshold 0.02. -/
def MIN_VAD_THRESHOLD_SQ : ℚ := 1 / 2500

/-- Square of the VAD multiplier 3.0. -/
def VAD_MULTIPLIER_SQ : ℚ := 9

/-- Number of silent iterations before committing (`SILENCE_COMMIT_THRESHOLD`). -/
def SILENCE_COMMIT_THRESHOLD : Nat := 3

/-- Drop leading and trailing whitespace, as Rust `str::trim`. -/
def trimL (s : List Char) : List Char :=
  ((s.dropWhile Char.isWhitespace).reverse.dropWhile Char.isWhitespace).reverse

/-- `String` version of `trimL`, as Rust `str::trim` / `trim().to_string()`. -/
def trimString (s : String) : String :=
  String.mk (trimL s.data)

/-- Substring test on character lists, as Rust `str::contains`. -/
def containsSub (hay needle : List Char) : Bool :=
  match hay with
  | [] => needle.isPrefixOf ([] : List Char)
  | _ :: t => needle.isPrefixOf hay || containsSub t needle

/-- Worker for `countMatches`: `skip` counts characters still to be skipped
because they belong to the previously counted (non-overlapping) match. -/
def countMatchesAux (hay needle : List Char) (skip : Nat) : Nat :=
  match hay, skip with
  | [], _ => 0
  | _ :: t, Nat.succ k => countMatchesAux t needle k
  | h :: t, 0 =>
    if needle ≠ [] && needle.isPrefixOf (h :: t) then
      1 + countMatchesAux t needle (needle.length - 1)
    else
      countMatchesAux t needle 0

/-- Count non-overlapping occurrences, as Rust `str::matches(pat).count()`:
leftmost search, skipping the length of the needle after each match. -/
def countMatches (hay needle : List Char) : Nat :=
  countMatchesAux hay needle 0

/-- Auxiliary word splitter, as Rust `str::split_whitespace` (no empty words). -/
def splitWSAux (s : List Char) (acc : List Char) : List (List Char) :=
  match s with
  | [] => if acc = [] then [] else [acc.reverse]
  | c :: t =>
    if c.isWhitespace then
      if acc = [] then splitWSAux t [] else acc.reverse :: splitWSAux t []
    else
      splitWSAux t (c :: acc)

/-- Split into whitespace-separated words, as Rust `str::split_whitespace`. -/
def splitWS (s : List Char) : List (List Char) :=
  splitWSAux s []

/-- Does the string start with a space character, as Rust `starts_with(' ')`. -/
def startsWithSpace (s : String) : Bool :=
  match s.data with
  | c :: _ => c == ' '
  | [] => false

/-- The common hallucination pattern table of `LiveTranscriber::is_hallucination`,
verbatim from the source (all lowercase; the two music-symbol entries carry the
exact characters present in the source file). -/
def hallucination_patterns : List (List Char) :=
  [ "[music".data, "(music".data, "â™ª".data, "ðŸŽµ".data, "[blank_audio]".data,
    "[silence".data, "(silence".data, "[audio".data, "(audio".data,
    "[sigh".data, "(sigh".data, "[crying".data, "(crying".data,
    "[laughter".data, "(laughter".data, "[applause".data, "(applause".data,
    "[noise".data, "(noise".data, "[inaudible".data, "(inaudible".data,
    "[unintelligible".data, "(unintelligible".data, "[background".data,
    "(background".data, "[ambient".data, "(ambient".data, "[static".data,
    "(static".data, "[breathing".data, "(breathing".data, "[cough".data,
    "(cough".data, "[sneeze".data, "(sneeze".data, "[whisper".data,
    "(whisper".data, "[mumbl".data, "(mumbl".data, "[squeak".data,
    "(squeak".data, "[click".data, "(click".data, "[beep".data, "(beep".data,
    "[tone".data, "(tone".data, "[bell".data, "(bell".data, "[ring".data,
    "(ring".data, "[dramatic".data, "(dramatic".data, "[sad".data,
    "(sad".data, "[happy".data, "(happy".data, "[whistl".data, "(whistl".data,
    "[humm".data, "(humm".data, "[mimick".data, "(mimick".data,
    "[speaking".data, "(speaking".data, "[foreign".data, "(foreign".data,
    "[xbox".data, "(xbox".data, "[windows".data, "(windows".data,
    "...".data, "shh".data, "shhh".data, "hmm".data, "hush".data,
    "fash".data, "shook".data, "whoosh".data, "air whoosh".data,
    "you are the only".data, "your house".data, "i\x27ll show you".data,
    "yet the few".data, "a few days".data, "and you have".data,
    "thank you".data, "thanks for".data, "bye".data, "goodbye".data,
    "i\x27m sorry".data, "sorry".data, "please come".data,
    "come forward".data, "famous for".data, "you will be".data ]

/-- The filler-word table of `is_hallucination`, verbatim from the source. -/
def filler_words : List (List Char) :=
  [ "and".data, "the".data, "a".data, "an".data, "to".data, "of".data,
    "in".data, "is".data, "it".data, "you".data, "i".data ]

/-- `LiveTranscriber::is_hallucination`: lowercase, trim, then reject on
pattern containment, trimmed length ≤ 2, fewer than 3 alphabetic characters,
≥ 3 occurrences of " and"/"and ", or a short all-filler utterance. -/
def is_hallucination (text : String) : Bool :=
  let lower := text.data.map Char.toLower
  let trimmed := trimL lower
  if hallucination_patterns.any (fun p => containsSub trimmed p) then
    true
  else if trimmed.length ≤ 2 then
    true
  else if (trimmed.filter Char.isAlpha).length < 3 then
    true
  else if 3 ≤ countMatches trimmed " and".data + countMatches trimmed "and ".data then
    true
  else
    let words := splitWS trimmed
    if words.length ≤ 3 &&
        (words.filter (fun w => filler_words.contains w)).length == words.length then
      true
    else
      false

/-- `resample` (linear resampling).  Rust computes with f64; the embedding
uses exact rationals: `as usize` on a nonnegative value is `Nat.floor`, and
out-of-range indexing (which cannot occur on the paths the claims exercise)
is modelled by `getD _ 0`. -/
def resample (samples : List ℚ) (from_rate to_rate : Nat) : List ℚ :=
  if from_rate = to_rate then
    samples
  else
    let ratio : ℚ := (from_rate : ℚ) / (to_rate : ℚ)
    let output_len : Nat := Nat.floor ((samples.length : ℚ) / ratio)
    (List.range output_len).map (fun (i : Nat) =>
      let src_idx : ℚ := (i : ℚ) * ratio
      let idx : Nat := Nat.floor src_idx
      let frac : ℚ := src_idx - (idx : ℚ)
      if idx + 1 < samples.length then
        samples.getD idx 0 * (1 - frac) + samples.getD (idx + 1) 0 * frac
      else
        samples.getD (min idx (samples.length - 1)) 0)

/-- The engine state of `LiveTranscriber` (the whisper context is external
and carried implicitly by the oracle passed to `process`). -/
structure LiveTranscriber where
  /-- All accumulated audio samples for the current segment. -/
  buffer : List ℚ
  samples_since_last_process : Nat
  /-- Committed text from previous segments (finalized). -/
  committed_text : String
  /-- Current transcription of the buffer (updates in real time). -/
  current_text : String
  /-- Number of consecutive silent processing cycles. -/
  silence_count : Nat
  /-- Squared calibrated VAD threshold based on ambient noise. -/
  vad_threshold_sq : ℚ
  /-- Whether calibration is complete. -/
  calibrated : Bool
  /-- Samples collected during calibration. -/
  calibration_samples : List ℚ
  /-- Consecutive quiet samples collected. -/
  quiet_streak_samples : Nat

/-- `LiveTranscriber::new` (state fields only): `vad_threshold` starts at
0.02, whose square is 1/2500. -/
def LiveTranscriber.new : LiveTranscriber :=
  { buffer := []
    samples_since_last_process := 0
    committed_text := ""
    current_text := ""
    silence_count := 0
    vad_threshold_sq := 1 / 2500
    calibrated := false
    calibration_samples := []
    quiet_streak_samples := 0 }

/-- `LiveTranscriber::is_calibrated`. -/
def LiveTranscriber.is_calibrated (st : LiveTranscriber) : Bool :=
  st.calibrated

/-- `LiveTranscriber::calibration_progress` (0.0 to 1.0). -/
def LiveTranscriber.calibration_progress (st : LiveTranscriber) : ℚ :=
  if st.calibrated then 1
  else (st.calibration_samples.length : ℚ) / (CALIBRATION_SAMPLES : ℚ)

/-- Squared `LiveTranscriber::calculate_rms`: the source returns
`sqrt(sum_squares / len)` (0.0 on empty input); the embedding carries the
square `sum_squares / len`, see the header comment. -/
def calculate_rms_sq (samples : List ℚ) : ℚ :=
  if samples = [] then 0
  else (samples.map (fun s => s * s)).sum / (samples.length : ℚ)

/-- `LiveTranscriber::complete_calibration`: set the squared threshold to
`max((ambient_rms * 3.0)², 0.02²) = max(ambient_rms_sq * 9, 1/2500)`,
mark calibrated, and free the calibration buffer. -/
def LiveTranscriber.complete_calibration (st : LiveTranscriber) : LiveTranscriber :=
  let ambient_sq := calculate_rms_sq st.calibration_samples
  { st with
    vad_threshold_sq := max (ambient_sq * VAD_MULTIPLIER_SQ) MIN_VAD_THRESHOLD_SQ
    calibrated := true
    calibration_samples := [] }

/-- The chunked while-loop of `LiveTranscriber::add_samples` ran while not
calibrated: examine 100 ms chunks; quiet chunks accumulate (completing
calibration once ≥ 3 s are held, pushing the remaining input into the main
buffer and stopping), loud chunks reset the accumulated run. -/
def LiveTranscriber.calib_loop (st : LiveTranscriber) (samples : List ℚ) :
    LiveTranscriber :=
  match samples with
  | [] => st
  | c :: cs =>
    let chunk := (c :: cs).take CALIBRATION_CHUNK_SAMPLES
    let rest := (c :: cs).drop CALIBRATION_CHUNK_SAMPLES
    if calculate_rms_sq chunk < PRE_CALIBRATION_QUIET_THRESHOLD_SQ then
      let st1 :=
        { st with
          calibration_samples := st.calibration_samples ++ chunk
          quiet_streak_samples := st.quiet_streak_samples + chunk.length }
      if CALIBRATION_SAMPLES ≤ st1.calibration_samples.length then
        let st2 := st1.complete_calibration
        { st2 with
          buffer := st2.buffer ++ rest
          samples_since_last_process :=
            st2.samples_since_last_process + rest.length }
      else
        LiveTranscriber.calib_loop st1 rest
    else
      LiveTranscriber.calib_loop
        { st with calibration_samples := [], quiet_streak_samples := 0 } rest
termination_by samples.length
decreasing_by
  all_goals
    simp only [List.length_drop, List.length_cons, CALIBRATION_CHUNK_SAMPLES]
    omega

/-- `LiveTranscriber::add_samples`: feed the calibrator while uncalibrated,
otherwise append to the main buffer. -/
def LiveTranscriber.add_samples (st : LiveTranscriber) (samples : List ℚ) :
    LiveTranscriber :=
  if st.calibrated then
    { st with
      buffer := st.buffer ++ samples
      samples_since_last_process :=
        st.samples_since_last_process + samples.length }
  else
    st.calib_loop samples

/-- `LiveTranscriber::should_force_commit`: buffer at or above the 30 s cap. -/
def LiveTranscriber.should_force_commit (st : LiveTranscriber) : Bool :=
  MAX_BUFFER_SAMPLES ≤ st.buffer.length

/-- `LiveTranscriber::ready_to_process`. -/
def LiveTranscriber.ready_to_process (st : LiveTranscriber) : Bool :=
  st.calibrated && STEP_SAMPLES ≤ st.samples_since_last_process

/-- The VAD window of `process`: the most recent 500 ms of the buffer, or
the whole buffer if shorter (`&buffer[len - STEP..]` / `&buffer[..]`). -/
def vad_window (buffer : List ℚ) : List ℚ :=
  if STEP_SAMPLES < buffer.length then
    buffer.drop (buffer.length - STEP_SAMPLES)
  else
    buffer

/-- One step of the text-assembly loop of `process`: skip empty-after-trim
or hallucinated segments; insert a single space before a segment that does
not itself start with a space when text was already accumulated. -/
def assemble_step (acc : String) (text : String) : String :=
  if trimString text ≠ "" ∧ is_hallucination text = false then
    (if acc ≠ "" ∧ startsWithSpace text = false then acc ++ " " else acc) ++ text
  else
    acc

/-- The segment-concatenation loop of `process` over the oracle's segments. -/
def assemble_segments (segs : List String) : String :=
  segs.foldl assemble_step ""

/-- `LiveTranscriber::commit_segment`: append the current text to the
committed text (with a paragraph break if needed), then clear the current
text, the audio buffer and the silence counter. -/
def LiveTranscriber.commit_segment (st : LiveTranscriber) : LiveTranscriber :=
  if st.current_text = "" then st
  else
    { st with
      committed_text :=
        (if st.committed_text = "" then "" else st.committed_text ++ "\n\n")
          ++ st.current_text
      current_text := ""
      buffer := []
      silence_count := 0 }

/-- `LiveTranscriber::process`: empty buffer is a no-op; otherwise reset the
step counter, run VAD on the most recent window, count silence toward a
commit, or transcribe the whole buffer through the oracle, filter and
assemble the segments, and update the tentative text if it changed.  The
`Result<bool, String>` of the source is `Except String Bool`; `Ok(true)`
covers both the `Committed` and `Updated` outcomes of the spec, `Ok(false)`
is `NoChange`. -/
def LiveTranscriber.process
    (oracle : List ℚ → Except String (List String)) (st : LiveTranscriber) :
    Except String Bool × LiveTranscriber :=
  if st.buffer = [] then
    (Except.ok false, st)
  else
    let st0 := { st with samples_since_last_process := 0 }
    let rms_sq := calculate_rms_sq (vad_window st0.buffer)
    if rms_sq < st0.vad_threshold_sq then
      let st1 := { st0 with silence_count := st0.silence_count + 1 }
      if SILENCE_COMMIT_THRESHOLD ≤ st1.silence_count ∧ st1.current_text ≠ "" then
        (Except.ok true, st1.commit_segment)
      else
        (Except.ok false, st1)
    else
      let st1 := { st0 with silence_count := 0 }
      match oracle st1.buffer with
      | Except.error e => (Except.error e, st1)
      | Except.ok segs =>
        let full_text := trimString (assemble_segments segs)
        if full_text ≠ "" ∧ full_text ≠ st1.current_text then
          (Except.ok true, { st1 with current_text := full_text })
        else
          (Except.ok false, st1)

/-- `LiveTranscriber::get_transcript`: committed and current text joined by
a paragraph break when both are non-empty. -/
def LiveTranscriber.get_transcript (st : LiveTranscriber) : String :=
  if st.committed_text = "" then st.current_text
  else if st.current_text = "" then st.committed_text
  else st.committed_text ++ "\n\n" ++ st.current_text

/-- `LiveTranscriber::clear`: reset everything, including calibration and
the VAD threshold (back to 0.02, squared 1/2500). -/
def LiveTranscriber.clear (st : LiveTranscriber) : LiveTranscriber :=
  { st with
    buffer := []
    samples_since_last_process := 0
    committed_text := ""
    current_text := ""
    silence_count := 0
    calibrated := false
    calibration_samples := []
    quiet_streak_samples := 0
    vad_threshold_sq := 1 / 2500 }

/-- Mirror of the chunked calibration loop that reports where in the input
calibration completes: `completionCut acc samples = some k` states that,
starting from `acc` already-accumulated quiet samples, the loop completes
calibration at the end of the chunk `samples[.. k]` (so `k` is the
`chunk_end` offset of the triggering chunk), and `none` that the loop runs
through the whole input without completing. -/
def completionCut (acc : Nat) (samples : List ℚ) : Option Nat :=
  match samples with
  | [] => none
  | c :: cs =>
    let chunk := (c :: cs).take CALIBRATION_CHUNK_SAMPLES
    let rest := (c :: cs).drop CALIBRATION_CHUNK_SAMPLES
    if calculate_rms_sq chunk < PRE_CALIBRATION_QUIET_THRESHOLD_SQ then
      if CALIBRATION_SAMPLES ≤ acc + chunk.length then
        some chunk.length
      else
        (completionCut (acc + chunk.length) rest).map (· + chunk.length)
    else
      (completionCut 0 rest).map (· + chunk.length)
termination_by samples.length
decreasing_by
  all_goals
    simp only [List.length_drop, List.length_cons, CALIBRATION_CHUNK_SAMPLES]
    omega

/-- Mirror of the chunked calibration loop that reports the exact contents
of the calibration buffer at the moment `complete_calibration` runs:
`completionAmbient cal samples = some b` states that, starting from the
already-accumulated quiet samples `cal`, the call completes calibration
with calibration buffer `b` (the accumulated contiguous quiet run up to
and including the triggering chunk), so that `calculate_rms_sq b` is
exactly the squared `ambient_rms = RMS(calibration_buffer)` from which the
threshold is computed; `none` states the call does not complete
calibration.  The recursion (quiet accumulate / reset on loud / complete)
is the same as in `calib_loop`. -/
def completionAmbient (cal : List ℚ) (samples : List ℚ) : Option (List ℚ) :=
  match samples with
  | [] => none
  | c :: cs =>
    let chunk := (c :: cs).take CALIBRATION_CHUNK_SAMPLES
    let rest := (c :: cs).drop CALIBRATION_CHUNK_SAMPLES
    if calculate_rms_sq chunk < PRE_CALIBRATION_QUIET_THRESHOLD_SQ then
      if CALIBRATION_SAMPLES ≤ (cal ++ chunk).length then
        some (cal ++ chunk)
      else
        completionAmbient (cal ++ chunk) rest
    else
      completionAmbient [] rest
termination_by samples.length
decreasing_by
  all_goals
    simp only [List.length_drop, List.length_cons, CALIBRATION_CHUNK_SAMPLES]
    omega

/-- Engine states reachable from a fresh `LiveTranscriber` through its
public operations. -/
inductive Reachable : LiveTranscriber → Prop
  | init : Reachable LiveTranscriber.new
  | add (st : LiveTranscriber) (s : List ℚ) :
      Reachable st → Reachable (st.add_samples s)
  | proc (st : LiveTranscriber) (o : List ℚ → Except String (List String)) :
      Reachable st → Reachable (st.process o).2
  | clr (st : LiveTranscriber) : Reachable st → Reachable st.clear

lemma calculate_rms_sq_nonneg (samples : List ℚ) : 0 ≤ calculate_rms_sq samples := by
  unfold calculate_rms_sq
  split
  · exact le_refl 0
  · apply div_nonneg
    · apply List.sum_nonneg
      intro x hx
      obtain ⟨s, _, rfl⟩ := List.mem_map.mp hx
      exact mul_self_nonneg s
    · exact Nat.cast_nonneg _

lemma calculate_rms_sq_replicate_zero (n : Nat) :
    calculate_rms_sq (List.replicate n (0 : ℚ)) = 0 := by
  unfold calculate_rms_sq
  split
  · rfl
  · simp [List.map_replicate, List.sum_replicate]

lemma string_append_ne_empty_right (p q : String) (h : q ≠ "") : p ++ q ≠ "" := by
  intro hc
  apply h
  have hd := congrArg String.data hc
  simp only [String.data_append] at hd
  rcases List.append_eq_nil.mp hd with ⟨_, h2⟩
  cases q
  simp_all

lemma drop_length_take (l : List ℚ) (n : Nat) :
    l.drop (l.take n).length = l.drop n := by
  rcases le_or_lt n l.length with h | h
  · rw [List.length_take, Nat.min_eq_left h]
  · rw [List.length_take, Nat.min_eq_right (le_of_lt h), List.drop_length,
      List.drop_eq_nil_of_le (le_of_lt h)]

lemma process_empty (o : List ℚ → Except String (List String))
    (st : LiveTranscriber) (h : st.buffer = []) :
    st.process o = (Except.ok false, st) := by
  simp [LiveTranscriber.process, h]

lemma process_silence_step (o : List ℚ → Except String (List String))
    (st : LiveTranscriber) (hb : st.buffer ≠ [])
    (hs : calculate_rms_sq (vad_window st.buffer) < st.vad_threshold_sq)
    (hno : ¬(SILENCE_COMMIT_THRESHOLD ≤ st.silence_count + 1 ∧ st.current_text ≠ "")) :
    st.process o =
      (Except.ok false,
        { st with samples_since_last_process := 0,
                  silence_count := st.silence_count + 1 }) := by
  simp [LiveTranscriber.process, hb, hs, hno]

lemma process_silence_commit (o : List ℚ → Except String (List String))
    (st : LiveTranscriber) (hb : st.buffer ≠ [])
    (hs : calculate_rms_sq (vad_window st.buffer) < st.vad_threshold_sq)
    (hyes : SILENCE_COMMIT_THRESHOLD ≤ st.silence_count + 1)
    (hct : st.current_text ≠ "") :
    st.process o =
      (Except.ok true,
        { st with samples_since_last_process := 0,
                  committed_text :=
                    (if st.committed_text = "" then "" else st.committed_text ++ "\n\n")
                      ++ st.current_text,
                  current_text := "", buffer := [], silence_count := 0 }) := by
  simp [LiveTranscriber.process, hb, hs, hyes, hct, LiveTranscriber.commit_segment]

lemma process_speech_error (o : List ℚ → Except String (List String))
    (st : LiveTranscriber) (e : String) (hb : st.buffer ≠ [])
    (hs : ¬calculate_rms_sq (vad_window st.buffer) < st.vad_threshold_sq)
    (he : o st.buffer = Except.error e) :
    st.process o =
      (Except.error e,
        { st with samples_since_last_process := 0, silence_count := 0 }) := by
  simp [LiveTranscriber.process, hb, hs, he]

lemma calib_loop_nil (st : LiveTranscriber) : st.calib_loop [] = st := by
  simp [LiveTranscriber.calib_loop]

lemma calib_loop_one_chunk_loud (st : LiveTranscriber) (samples : List ℚ)
    (h1 : samples ≠ []) (h2 : samples.length ≤ CALIBRATION_CHUNK_SAMPLES)
    (hl : ¬calculate_rms_sq samples < PRE_CALIBRATION_QUIET_THRESHOLD_SQ) :
    st.calib_loop samples =
      { st with calibration_samples := [], quiet_streak_samples := 0 } := by
  obtain ⟨c, cs, rfl⟩ := List.exists_cons_of_ne_nil h1
  simp only [LiveTranscriber.calib_loop]
  rw [List.take_of_length_le h2, List.drop_eq_nil_of_le h2, if_neg hl,
    calib_loop_nil]

lemma calib_loop_one_chunk_complete (st : LiveTranscriber) (samples : List ℚ)
    (h1 : samples ≠ []) (h2 : samples.length ≤ CALIBRATION_CHUNK_SAMPLES)
    (hq : calculate_rms_sq samples < PRE_CALIBRATION_QUIET_THRESHOLD_SQ)
    (hc : CALIBRATION_SAMPLES ≤ st.calibration_samples.length + samples.length) :
    st.calib_loop samples =
      { st with
        calibrated := true
        calibration_samples := []
        quiet_streak_samples := st.quiet_streak_samples + samples.length
        vad_threshold_sq :=
          max (calculate_rms_sq (st.calibration_samples ++ samples) * VAD_MULTIPLIER_SQ)
            MIN_VAD_THRESHOLD_SQ } := by
  obtain ⟨c, cs, rfl⟩ := List.exists_cons_of_ne_nil h1
  simp only [LiveTranscriber.calib_loop]
  rw [List.take_of_length_le h2, List.drop_eq_nil_of_le h2, if_pos hq]
  rw [if_pos (by simpa [List.length_append] using hc)]
  simp [LiveTranscriber.complete_calibration]

/-- Joint specification of the calibration loop and its mirror
`completionCut`: if no chunk completes calibration the engine state keeps
its threshold and buffer (only the calibration accumulator changes); if
calibration completes at cut `k` (the end of the triggering chunk), exactly
the samples after `k` are appended to the main buffer and the threshold is
set once to `max(ambient_rms_sq * 9, 1/2500)` for a nonnegative ambient. -/
theorem calib_loop_cut (samples : List ℚ) (st : LiveTranscriber)
    (h : st.calibrated = false) :
    (completionCut st.calibration_samples.length samples = none →
      (st.calib_loop samples).calibrated = false ∧
      (st.calib_loop samples).vad_threshold_sq = st.vad_threshold_sq ∧
      (st.calib_loop samples).buffer = st.buffer ∧
      (st.calib_loop samples).samples_since_last_process
        = st.samples_since_last_process) ∧
    (∀ k, completionCut st.calibration_samples.length samples = some k →
      k ≤ samples.length ∧
      (st.calib_loop samples).calibrated = true ∧
      (st.calib_loop samples).buffer = st.buffer ++ samples.drop k ∧
      (st.calib_loop samples).samples_since_last_process
        = st.samples_since_last_process + (samples.length - k) ∧
      ∃ a : ℚ, 0 ≤ a ∧
        (st.calib_loop samples).vad_threshold_sq
          = max (a * VAD_MULTIPLIER_SQ) MIN_VAD_THRESHOLD_SQ) := by
  cases samples with
  | nil =>
    rw [calib_loop_nil]
    constructor
    · intro _
      exact ⟨h, rfl, rfl, rfl⟩
    · intro k hk
      simp [completionCut] at hk
  | cons c cs =>
    simp only [LiveTranscriber.calib_loop, completionCut]
    by_cases hq : calculate_rms_sq ((c :: cs).take CALIBRATION_CHUNK_SAMPLES)
        < PRE_CALIBRATION_QUIET_THRESHOLD_SQ
    · rw [if_pos hq, if_pos hq]
      by_cases hcmp : CALIBRATION_SAMPLES ≤
          st.calibration_samples.length
            + ((c :: cs).take CALIBRATION_CHUNK_SAMPLES).length
      · have hcmpA : CALIBRATION_SAMPLES ≤
            (st.calibration_samples ++ (c :: cs).take CALIBRATION_CHUNK_SAMPLES).length := by
          rw [List.length_append]
          exact hcmp
        rw [if_pos hcmpA, if_pos hcmp]
        constructor
        · intro hnone
          simp at hnone
        · intro k hk
          obtain rfl : ((c :: cs).take CALIBRATION_CHUNK_SAMPLES).length = k :=
            Option.some.inj hk
          refine ⟨?_, rfl, ?_, ?_, ?_⟩
          · rw [List.length_take]
            exact min_le_right _ _
          · simp only [LiveTranscriber.complete_calibration]
            rw [drop_length_take]
          · simp only [LiveTranscriber.complete_calibration]
            rw [List.length_drop, List.length_take]
            simp
            omega
          · exact ⟨calculate_rms_sq (st.calibration_samples
                ++ (c :: cs).take CALIBRATION_CHUNK_SAMPLES),
              calculate_rms_sq_nonneg _, by
                simp [LiveTranscriber.complete_calibration]⟩
      · have hcmpA : ¬CALIBRATION_SAMPLES ≤
            (st.calibration_samples ++ (c :: cs).take CALIBRATION_CHUNK_SAMPLES).length := by
          rw [List.length_append]
          exact hcmp
        rw [if_neg hcmpA, if_neg hcmp]
        have hrec := calib_loop_cut ((c :: cs).drop CALIBRATION_CHUNK_SAMPLES)
          { st with
            calibration_samples := st.calibration_samples
              ++ (c :: cs).take CALIBRATION_CHUNK_SAMPLES
            quiet_streak_samples := st.quiet_streak_samples
              + ((c :: cs).take CALIBRATION_CHUNK_SAMPLES).length }
          (by simpa using h)
        rw [List.length_append] at hrec
        constructor
        · intro hnone
          rw [Option.map_eq_none'] at hnone
          obtain ⟨g1, g2, g3, g4⟩ := hrec.1 hnone
          exact ⟨g1, by simpa using g2, by simpa using g3, by simpa using g4⟩
        · intro k hk
          rw [Option.map_eq_some'] at hk
          obtain ⟨k1, hk1, rfl⟩ := hk
          have hlen : CALIBRATION_CHUNK_SAMPLES ≤ (c :: cs).length := by
            by_contra hlt
            push_neg at hlt
            rw [List.drop_eq_nil_of_le (le_of_lt hlt)] at hk1
            simp [completionCut] at hk1
          obtain ⟨g0, g1, g2, g3, g4⟩ := hrec.2 k1 hk1
          have hcl : ((c :: cs).take CALIBRATION_CHUNK_SAMPLES).length
              = CALIBRATION_CHUNK_SAMPLES := by
            rw [List.length_take]
            exact Nat.min_eq_left hlen
          rw [List.length_drop] at g0 g3
          refine ⟨by omega, g1, ?_, ?_, g4⟩
          · rw [g2]
            simp only [List.drop_drop, hcl]
            rw [Nat.add_comm CALIBRATION_CHUNK_SAMPLES k1]
          · rw [g3]
            simp [hcl]
            omega
    · rw [if_neg hq, if_neg hq]
      have hrec := calib_loop_cut ((c :: cs).drop CALIBRATION_CHUNK_SAMPLES)
        { st with calibration_samples := [], quiet_streak_samples := 0 }
        (by simpa using h)
      constructor
      · intro hnone
        rw [Option.map_eq_none'] at hnone
        obtain ⟨g1, g2, g3, g4⟩ := hrec.1 (by simpa using hnone)
        exact ⟨g1, by simpa using g2, by simpa using g3, by simpa using g4⟩
      · intro k hk
        rw [Option.map_eq_some'] at hk
        obtain ⟨k1, hk1, rfl⟩ := hk
        have hlen : CALIBRATION_CHUNK_SAMPLES ≤ (c :: cs).length := by
          by_contra hlt
          push_neg at hlt
          rw [List.drop_eq_nil_of_le (le_of_lt hlt)] at hk1
          simp [completionCut] at hk1
        obtain ⟨g0, g1, g2, g3, g4⟩ := hrec.2 k1 (by simpa using hk1)
        have hcl : ((c :: cs).take CALIBRATION_CHUNK_SAMPLES).length
            = CALIBRATION_CHUNK_SAMPLES := by
          rw [List.length_take]
          exact Nat.min_eq_left hlen
        rw [List.length_drop] at g0 g3
        refine ⟨by omega, g1, ?_, ?_, g4⟩
        · rw [g2]
          simp only [List.drop_drop, hcl]
          rw [Nat.add_comm CALIBRATION_CHUNK_SAMPLES k1]
        · rw [g3]
          simp [hcl]
          omega
termination_by samples.length
decreasing_by
  all_goals
    simp only [List.length_drop, List.length_cons, CALIBRATION_CHUNK_SAMPLES]
    omega

/-- Joint specification of the calibration loop and its mirror
`completionAmbient`: when the loop runs through the input without
completing, the threshold is unchanged; when it completes with
calibration buffer `b`, the threshold is set exactly to
`max(calculate_rms_sq b * 9, 1/2500)` — i.e. to the squared form of
`max(ambient_rms * MULTIPLIER, MIN_THRESHOLD)` with
`ambient_rms = RMS(calibration_buffer)` — and `b` holds at least the
3-second target of quiet samples. -/
theorem calib_loop_ambient (samples : List ℚ) (st : LiveTranscriber)
    (h : st.calibrated = false) :
    (completionAmbient st.calibration_samples samples = none →
      (st.calib_loop samples).calibrated = false ∧
      (st.calib_loop samples).vad_threshold_sq = st.vad_threshold_sq) ∧
    (∀ b, completionAmbient st.calibration_samples samples = some b →
      (st.calib_loop samples).calibrated = true ∧
      (st.calib_loop samples).vad_threshold_sq
        = max (calculate_rms_sq b * VAD_MULTIPLIER_SQ) MIN_VAD_THRESHOLD_SQ ∧
      CALIBRATION_SAMPLES ≤ b.length) := by
  cases samples with
  | nil =>
    rw [calib_loop_nil]
    constructor
    · intro _
      exact ⟨h, rfl⟩
    · intro b hb
      simp [completionAmbient] at hb
  | cons c cs =>
    simp only [LiveTranscriber.calib_loop, completionAmbient]
    by_cases hq : calculate_rms_sq ((c :: cs).take CALIBRATION_CHUNK_SAMPLES)
        < PRE_CALIBRATION_QUIET_THRESHOLD_SQ
    · rw [if_pos hq, if_pos hq]
      by_cases hcmp : CALIBRATION_SAMPLES ≤
          (st.calibration_samples ++ (c :: cs).take CALIBRATION_CHUNK_SAMPLES).length
      · rw [if_pos hcmp, if_pos hcmp]
        constructor
        · intro hnone
          simp at hnone
        · intro b hb
          obtain rfl : st.calibration_samples
              ++ (c :: cs).take CALIBRATION_CHUNK_SAMPLES = b :=
            Option.some.inj hb
          refine ⟨rfl, ?_, hcmp⟩
          simp [LiveTranscriber.complete_calibration]
      · rw [if_neg hcmp, if_neg hcmp]
        have hrec := calib_loop_ambient ((c :: cs).drop CALIBRATION_CHUNK_SAMPLES)
          { st with
            calibration_samples := st.calibration_samples
              ++ (c :: cs).take CALIBRATION_CHUNK_SAMPLES
            quiet_streak_samples := st.quiet_streak_samples
              + ((c :: cs).take CALIBRATION_CHUNK_SAMPLES).length }
          (by simpa using h)
        constructor
        · intro hnone
          obtain ⟨g1, g2⟩ := hrec.1 hnone
          exact ⟨g1, by simpa using g2⟩
        · intro b hb
          obtain ⟨g1, g2, g3⟩ := hrec.2 b hb
          exact ⟨g1, g2, g3⟩
    · rw [if_neg hq, if_neg hq]
      have hrec := calib_loop_ambient ((c :: cs).drop CALIBRATION_CHUNK_SAMPLES)
        { st with calibration_samples := [], quiet_streak_samples := 0 }
        (by simpa using h)
      constructor
      · intro hnone
        obtain ⟨g1, g2⟩ := hrec.1 hnone
        exact ⟨g1, by simpa using g2⟩
      · intro b hb
        obtain ⟨g1, g2, g3⟩ := hrec.2 b hb
        exact ⟨g1, g2, g3⟩
termination_by samples.length
decreasing_by
  all_goals
    simp only [List.length_drop, List.length_cons, CALIBRATION_CHUNK_SAMPLES]
    omega

lemma process_speech_ok (o : List ℚ → Except String (List String))
    (st : LiveTranscriber) (segs : List String) (hb : st.buffer ≠ [])
    (hs : ¬calculate_rms_sq (vad_window st.buffer) < st.vad_threshold_sq)
    (he : o st.buffer = Except.ok segs) :
    st.process o =
      (if trimString (assemble_segments segs) ≠ "" ∧
          trimString (assemble_segments segs) ≠ st.current_text then
        (Except.ok true,
          { st with samples_since_last_process := 0, silence_count := 0,
                    current_text := trimString (assemble_segments segs) })
      else
        (Except.ok false,
          { st with samples_since_last_process := 0, silence_count := 0 })) := by
  simp [LiveTranscriber.process, hb, hs, he]

lemma process_preserves (o : List ℚ → Except String (List String))
    (st : LiveTranscriber) :
    (st.process o).2.vad_threshold_sq = st.vad_threshold_sq ∧
    (st.process o).2.calibrated = st.calibrated ∧
    (st.process o).2.calibration_samples = st.calibration_samples := by
  by_cases hb : st.buffer = []
  · rw [process_empty o st hb]
    exact ⟨rfl, rfl, rfl⟩
  · by_cases hs : calculate_rms_sq (vad_window st.buffer) < st.vad_threshold_sq
    · by_cases hc : SILENCE_COMMIT_THRESHOLD ≤ st.silence_count + 1 ∧ st.current_text ≠ ""
      · rw [process_silence_commit o st hb hs hc.1 hc.2]
        exact ⟨rfl, rfl, rfl⟩
      · rw [process_silence_step o st hb hs hc]
        exact ⟨rfl, rfl, rfl⟩
    · cases he : o st.buffer with
      | error e =>
        rw [process_speech_error o st e hb hs he]
        exact ⟨rfl, rfl, rfl⟩
      | ok segs =>
        rw [process_speech_ok o st segs hb hs he]
        split <;> exact ⟨rfl, rfl, rfl⟩

/-- C7: for every sample list `x` and every rate `r`, `resample x r r`
returns a list equal to `x` (an exact copy of the input). -/
theorem c7_resample_identity (x : List ℚ) (r : Nat) : resample x r r = x := by
  simp [resample]

/-- C8: for every sample list `x` and positive rates `r1, r2`, the length of
`resample x r1 r2` is `floor(len(x) * r2 / r1)` (natural-number division). -/
theorem c8_resample_length (x : List ℚ) (r1 r2 : Nat)
    (h1 : 0 < r1) (h2 : 0 < r2) :
    (resample x r1 r2).length = x.length * r2 / r1 := by
  rcases eq_or_ne r1 r2 with rfl | hne
  · rw [Nat.mul_div_cancel _ h1]
    simp [resample]
  · have hr1 : (r1 : ℚ) ≠ 0 := Nat.cast_ne_zero.mpr h1.ne'
    have hr2 : (r2 : ℚ) ≠ 0 := Nat.cast_ne_zero.mpr h2.ne'
    have key : (x.length : ℚ) / ((r1 : ℚ) / (r2 : ℚ))
        = ((x.length * r2 : Nat) : ℚ) / ((r1 : Nat) : ℚ) := by
      rw [div_div_eq_mul_div]
      push_cast
      ring
    have hlen : (resample x r1 r2).length
        = Nat.floor ((x.length : ℚ) / ((r1 : ℚ) / (r2 : ℚ))) := by
      rw [resample, if_neg hne]
      exact (List.length_map _ _).trans (List.length_range _)
    rw [hlen, key, Nat.floor_div_nat, Nat.floor_natCast]

/-- Witness for C8 at the repository's own test input
(`test_resample`: 4 samples, 4 Hz to 2 Hz, expected length 2). -/
theorem c8_resample_length_witness :
    (0 < 4 ∧ 0 < 2) ∧ (resample [0, 1, 0, -1] 4 2).length = 2 :=
  ⟨⟨by decide, by decide⟩, by
    have h := c8_resample_length [0, 1, 0, -1] 4 2 (by decide) (by decide)
    simpa using h⟩

/-- C5: `is_hallucination` accepts the bracketed non-speech marker
"[music playing]", the repetition artifact "and and and" and the too-short
"ok", and rejects the ordinary sentence
"The weather today is sunny and clear". -/
theorem c5_hallucination_filter_examples :
    is_hallucination "[music playing]" = true ∧
    is_hallucination "and and and" = true ∧
    is_hallucination "ok" = true ∧
    is_hallucination "The weather today is sunny and clear" = false :=
  ⟨by decide, by decide, by decide, by decide⟩

/-- C9: while uncalibrated, a single non-quiet chunk (at most 100 ms whose
squared RMS is at or above 0.04² = 1/625) passed to `add_samples` discards
all accumulated calibration samples and restarts collection, so
`calibration_progress` is 0 immediately after, the engine stays
uncalibrated, and nothing reaches the main buffer. -/
theorem c9_calibration_reset_on_noise (st : LiveTranscriber)
    (samples : List ℚ) (h0 : st.calibrated = false) (h1 : samples ≠ [])
    (h2 : samples.length ≤ CALIBRATION_CHUNK_SAMPLES)
    (h3 : PRE_CALIBRATION_QUIET_THRESHOLD_SQ ≤ calculate_rms_sq samples) :
    (st.add_samples samples).calibration_samples = [] ∧
    (st.add_samples samples).quiet_streak_samples = 0 ∧
    (st.add_samples samples).calibrated = false ∧
    (st.add_samples samples).calibration_progress = 0 ∧
    (st.add_samples samples).buffer = st.buffer := by
  have hl : ¬calculate_rms_sq samples < PRE_CALIBRATION_QUIET_THRESHOLD_SQ :=
    not_lt.mpr h3
  have hres : st.add_samples samples
      = { st with calibration_samples := [], quiet_streak_samples := 0 } := by
    unfold LiveTranscriber.add_samples
    rw [if_neg (by simp [h0])]
    exact calib_loop_one_chunk_loud st samples h1 h2 hl
  rw [hres]
  refine ⟨rfl, rfl, h0, ?_, rfl⟩
  simp [LiveTranscriber.calibration_progress, h0]

/-- A partially-calibrated state used to witness C9. -/
def c9_state : LiveTranscriber :=
  { LiveTranscriber.new with
    calibration_samples := [0, 0, 0], quiet_streak_samples := 3 }

/-- Witness for C9: three accumulated quiet samples, then one loud sample
(RMS 1 ≥ 0.04) resets the calibration accumulator and progress. -/
theorem c9_calibration_reset_on_noise_witness :
    (c9_state.calibrated = false ∧ ([1] : List ℚ) ≠ [] ∧
      ([1] : List ℚ).length ≤ CALIBRATION_CHUNK_SAMPLES ∧
      PRE_CALIBRATION_QUIET_THRESHOLD_SQ ≤ calculate_rms_sq [1]) ∧
    ((c9_state.add_samples [1]).calibration_samples = [] ∧
      (c9_state.add_samples [1]).quiet_streak_samples = 0 ∧
      (c9_state.add_samples [1]).calibrated = false ∧
      (c9_state.add_samples [1]).calibration_progress = 0 ∧
      (c9_state.add_samples [1]).buffer = c9_state.buffer) :=
  ⟨⟨rfl, by simp, by norm_num [CALIBRATION_CHUNK_SAMPLES],
      by norm_num [calculate_rms_sq, PRE_CALIBRATION_QUIET_THRESHOLD_SQ]⟩,
    c9_calibration_reset_on_noise c9_state [1] rfl (by simp)
      (by norm_num [CALIBRATION_CHUNK_SAMPLES])
      (by norm_num [calculate_rms_sq, PRE_CALIBRATION_QUIET_THRESHOLD_SQ])⟩

/-- C4: if the inference call inside `process` fails, `process` returns the
error for that cycle, and the audio buffer, calibrated flag, (squared) VAD
threshold, committed text and tentative text are all unchanged, so the next
cycle can retry on the same accumulated audio. -/
theorem c4_inference_error_preserves_state
    (o : List ℚ → Except String (List String)) (st : LiveTranscriber)
    (e : String) (h : (st.process o).1 = Except.error e) :
    (st.process o).2.buffer = st.buffer ∧
    (st.process o).2.calibrated = st.calibrated ∧
    (st.process o).2.vad_threshold_sq = st.vad_threshold_sq ∧
    (st.process o).2.committed_text = st.committed_text ∧
    (st.process o).2.current_text = st.current_text := by
  by_cases hb : st.buffer = []
  · rw [process_empty o st hb] at h
    simp at h
  · by_cases hs : calculate_rms_sq (vad_window st.buffer) < st.vad_threshold_sq
    · by_cases hc : SILENCE_COMMIT_THRESHOLD ≤ st.silence_count + 1
          ∧ st.current_text ≠ ""
      · rw [process_silence_commit o st hb hs hc.1 hc.2] at h
        simp at h
      · rw [process_silence_step o st hb hs hc] at h
        simp at h
    · cases he : o st.buffer with
      | error e2 =>
        rw [process_speech_error o st e2 hb hs he]
        exact ⟨rfl, rfl, rfl, rfl, rfl⟩
      | ok segs =>
        rw [process_speech_ok o st segs hb hs he] at h
        split at h <;> simp at h

/-- A calibrated state with one loud sample buffered, witnessing C4. -/
def c4_state : LiveTranscriber :=
  { LiveTranscriber.new with
    buffer := [1], calibrated := true, current_text := "hi" }

/-- The failing inference oracle used to witness C4. -/
def c4_oracle : List ℚ → Except String (List String) :=
  fun _ => Except.error "boom"

/-- Witness for C4: a failing oracle on a speech cycle surfaces the error
and leaves the relevant state unchanged. -/
theorem c4_inference_error_witness :
    (c4_state.process c4_oracle).1 = Except.error "boom" ∧
    ((c4_state.process c4_oracle).2.buffer = c4_state.buffer ∧
      (c4_state.process c4_oracle).2.calibrated = c4_state.calibrated ∧
      (c4_state.process c4_oracle).2.vad_threshold_sq = c4_state.vad_threshold_sq ∧
      (c4_state.process c4_oracle).2.committed_text = c4_state.committed_text ∧
      (c4_state.process c4_oracle).2.current_text = c4_state.current_text) := by
  have hb : c4_state.buffer ≠ [] := by
    simp [c4_state]
  have hs : ¬calculate_rms_sq (vad_window c4_state.buffer)
      < c4_state.vad_threshold_sq := by
    norm_num [c4_state, LiveTranscriber.new, vad_window, STEP_SAMPLES,
      calculate_rms_sq]
  have h : (c4_state.process c4_oracle).1 = Except.error "boom" := by
    rw [process_speech_error c4_oracle c4_state "boom" hb hs rfl]
  exact ⟨h, c4_inference_error_preserves_state c4_oracle c4_state "boom" h⟩

/-- C3: from a calibrated state with non-empty tentative text, an empty
silence streak and a silent VAD window, three consecutive `process` cycles
commit: the first two return `Ok(false)`, the third returns `Ok(true)` with
the buffer cleared and the previously tentative text retained as a suffix
of the transcript (now all committed), and a fourth `process` call on the
now-empty buffer is a no-op returning `Ok(false)`. -/
theorem c3_silence_commit (o : List ℚ → Except String (List String))
    (st : LiveTranscriber) (_hcal : st.calibrated = true)
    (hb : st.buffer ≠ []) (hct : st.current_text ≠ "")
    (hsc : st.silence_count = 0)
    (hs : calculate_rms_sq (vad_window st.buffer) < st.vad_threshold_sq) :
    (st.process o).1 = Except.ok false ∧
    ((st.process o).2.process o).1 = Except.ok false ∧
    (((st.process o).2.process o).2.process o).1 = Except.ok true ∧
    (((st.process o).2.process o).2.process o).2.buffer = [] ∧
    (((st.process o).2.process o).2.process o).2.current_text = "" ∧
    (∃ p : String,
      (((st.process o).2.process o).2.process o).2.get_transcript
        = p ++ st.current_text) ∧
    ((((st.process o).2.process o).2.process o).2.process o
      = (Except.ok false, (((st.process o).2.process o).2.process o).2)) := by
  have h1 := process_silence_step o st hb hs
    (by simp [hsc, SILENCE_COMMIT_THRESHOLD])
  set st1 : LiveTranscriber :=
    { st with samples_since_last_process := 0,
              silence_count := st.silence_count + 1 } with hst1
  have hb1 : st1.buffer ≠ [] := hb
  have hs1 : calculate_rms_sq (vad_window st1.buffer) < st1.vad_threshold_sq := hs
  have h2 := process_silence_step o st1 hb1 hs1
    (by simp [hst1, hsc, SILENCE_COMMIT_THRESHOLD])
  set st2 : LiveTranscriber :=
    { st1 with samples_since_last_process := 0,
               silence_count := st1.silence_count + 1 } with hst2
  have hb2 : st2.buffer ≠ [] := hb
  have hs2 : calculate_rms_sq (vad_window st2.buffer) < st2.vad_threshold_sq := hs
  have hct2 : st2.current_text ≠ "" := hct
  have h3 := process_silence_commit o st2 hb2 hs2
    (by simp [hst2, hst1, hsc, SILENCE_COMMIT_THRESHOLD]) hct2
  set st3 : LiveTranscriber :=
    { st2 with samples_since_last_process := 0,
               committed_text :=
                 (if st2.committed_text = "" then "" else st2.committed_text ++ "\n\n")
                   ++ st2.current_text,
               current_text := "", buffer := [], silence_count := 0 } with hst3
  have h4 := process_empty o st3 rfl
  refine ⟨by simp [h1], by simp [h1, h2], by simp [h1, h2, h3],
    by simp [h1, h2, h3, hst3], by simp [h1, h2, h3, hst3], ?_, ?_⟩
  · refine ⟨if st.committed_text = "" then "" else st.committed_text ++ "\n\n", ?_⟩
    simp only [h1, h2, h3]
    unfold LiveTranscriber.get_transcript
    rw [if_neg (string_append_ne_empty_right _ _ hct2)]
    rw [if_pos rfl]
  · simp only [h1, h2, h3]
    exact h4

/-- The ordinary conversational phrases present in the hallucination
pattern table. -/
def conv_phrases : List String :=
  ["sorry", "thank you", "bye", "goodbye", "thanks for", "you will be",
    "your house"]

lemma is_hallucination_of_pattern (t : String) (p : List Char)
    (hp : p ∈ hallucination_patterns)
    (hc : containsSub (trimL (t.data.map Char.toLower)) p = true) :
    is_hallucination t = true := by
  have hany : hallucination_patterns.any
      (fun q => containsSub (trimL (t.data.map Char.toLower)) q) = true :=
    List.any_eq_true.mpr ⟨p, hp, hc⟩
  simp only [is_hallucination]
  rw [if_pos hany]

/-- C10: the hallucination filter matches its patterns as substrings of the
trimmed lowercased input, its table contains the ordinary conversational
phrases "sorry", "thank you", "bye", "goodbye", "thanks for",
"you will be" and "your house", so any text containing one of them — e.g.
the ordinary sentence "I am sorry about the delay" — is classified as a
hallucination, and a hallucinated segment contributes nothing to the text
assembled by `process` (it is discarded from the transcript). -/
theorem c10_conversational_phrases_filtered :
    (∀ p ∈ conv_phrases, ∀ t : String,
      containsSub (trimL (t.data.map Char.toLower)) p.data = true →
      is_hallucination t = true) ∧
    is_hallucination "I am sorry about the delay" = true ∧
    (∀ (pre post : List String) (s : String), is_hallucination s = true →
      assemble_segments (pre ++ s :: post) = assemble_segments (pre ++ post)) := by
  refine ⟨?_, by decide, ?_⟩
  · intro p hp t hc
    refine is_hallucination_of_pattern t p.data ?_ hc
    fin_cases hp <;> decide
  · intro pre post s h
    unfold assemble_segments
    rw [List.foldl_append, List.foldl_append, List.foldl_cons]
    have hstep : assemble_step (List.foldl assemble_step "" pre) s
        = List.foldl assemble_step "" pre := by
      unfold assemble_step
      rw [if_neg (by simp [h])]
    rw [hstep]

/-- Witness for C10 at the phrase "sorry" and the ordinary sentence
"I am sorry about the delay". -/
theorem c10_conversational_phrases_witness :
    ("sorry" ∈ conv_phrases ∧
      containsSub (trimL (("I am sorry about the delay").data.map Char.toLower))
        "sorry".data = true) ∧
    is_hallucination "I am sorry about the delay" = true :=
  ⟨⟨by decide, by decide⟩,
    c10_conversational_phrases_filtered.1 "sorry" (by decide)
      "I am sorry about the delay" (by decide)⟩

/-- A calibrated state whose buffer holds exactly 30 s of silent audio
(480000 samples) with pending tentative text: the failing input for C1. -/
def cap_state : LiveTranscriber :=
  { LiveTranscriber.new with
    buffer := List.replicate MAX_BUFFER_SAMPLES 0,
    calibrated := true, current_text := "hello" }

/-- C1 (evaluation at the failing input): with the buffer exactly at the
30 s hard cap, `should_force_commit` reports true, yet `process` follows
the ordinary VAD path: on silent audio with an empty silence streak it
returns `Ok(false)`, commits nothing, and leaves the full 480000-sample
buffer in place.  `should_force_commit` has no caller anywhere in the
repository, so no commit-and-clear is ever forced by the cap. -/
theorem c1_no_forced_commit_at_cap (o : List ℚ → Except String (List String)) :
    cap_state.should_force_commit = true ∧
    (cap_state.process o).1 = Except.ok false ∧
    (cap_state.process o).2.buffer = cap_state.buffer ∧
    (cap_state.process o).2.committed_text = "" ∧
    (cap_state.process o).2.current_text = "hello" ∧
    MAX_BUFFER_SAMPLES ≤ (cap_state.process o).2.buffer.length := by
  have harith : MAX_BUFFER_SAMPLES - (MAX_BUFFER_SAMPLES - STEP_SAMPLES)
      = STEP_SAMPLES := by
    norm_num [MAX_BUFFER_SAMPLES, STEP_SAMPLES]
  have hlen : cap_state.buffer.length = MAX_BUFFER_SAMPLES := by
    simp only [cap_state]
    rw [List.length_replicate]
  have hstep_lt : STEP_SAMPLES < MAX_BUFFER_SAMPLES := by
    norm_num [MAX_BUFFER_SAMPLES, STEP_SAMPLES]
  have hb : cap_state.buffer ≠ [] := by
    intro hc
    have h2 := congrArg List.length hc
    rw [hlen] at h2
    norm_num [MAX_BUFFER_SAMPLES] at h2
  have hwin : vad_window cap_state.buffer = List.replicate STEP_SAMPLES 0 := by
    unfold vad_window
    rw [hlen, if_pos hstep_lt]
    simp only [cap_state]
    rw [List.drop_replicate, harith]
  have hs : calculate_rms_sq (vad_window cap_state.buffer)
      < cap_state.vad_threshold_sq := by
    rw [hwin, calculate_rms_sq_replicate_zero]
    norm_num [cap_state, LiveTranscriber.new]
  have h := process_silence_step o cap_state hb hs
    (by simp [cap_state, LiveTranscriber.new, SILENCE_COMMIT_THRESHOLD])
  refine ⟨?_, ?_, ?_, ?_, ?_, ?_⟩
  · unfold LiveTranscriber.should_force_commit
    rw [hlen]
    simp
  · rw [h]
  · rw [h]
  · rw [h]
    exact rfl
  · rw [h]
    exact rfl
  · rw [h]
    exact le_of_eq hlen.symm

lemma completionCut_one_chunk (acc : Nat) (samples : List ℚ)
    (h1 : samples ≠ []) (h2 : samples.length ≤ CALIBRATION_CHUNK_SAMPLES)
    (hq : calculate_rms_sq samples < PRE_CALIBRATION_QUIET_THRESHOLD_SQ)
    (hc : CALIBRATION_SAMPLES ≤ acc + samples.length) :
    completionCut acc samples = some samples.length := by
  obtain ⟨c, cs, rfl⟩ := List.exists_cons_of_ne_nil h1
  simp only [completionCut]
  rw [List.take_of_length_le h2, if_pos hq, if_pos hc]

/-- An uncalibrated state that has already accumulated all but 1000 of the
48000 required quiet samples: the concrete state for C2. -/
def c2_state : LiveTranscriber :=
  { LiveTranscriber.new with
    calibration_samples := List.replicate (CALIBRATION_SAMPLES - 1000) 0,
    quiet_streak_samples := CALIBRATION_SAMPLES - 1000 }

/-- The single quiet 100 ms chunk (1600 zero samples) fed to `c2_state`. -/
def c2_input : List ℚ :=
  List.replicate CALIBRATION_CHUNK_SAMPLES 0

/-- C2 counterexample: feeding `c2_input` to `c2_state` completes
calibration, and the 3-second target is reached at input index 1000,
strictly inside the input (1000 < 1600); the claim then requires the 600
samples arriving after that point to be pushed to the main transcription
buffer, but the code leaves the buffer empty — those samples are absorbed
into the calibration buffer (then discarded), and the audio is lost. -/
theorem c2_lost_samples_counterexample :
    c2_state.calibration_samples.length + 1000 = CALIBRATION_SAMPLES ∧
    1000 < c2_input.length ∧
    (c2_state.add_samples c2_input).calibrated = true ∧
    (c2_state.add_samples c2_input).buffer = [] := by
  have hlen_cal : c2_state.calibration_samples.length = CALIBRATION_SAMPLES - 1000 := by
    simp only [c2_state]
    rw [List.length_replicate]
  have hlen_in : c2_input.length = CALIBRATION_CHUNK_SAMPLES := by
    simp only [c2_input]
    rw [List.length_replicate]
  have h1 : c2_input ≠ [] := by
    intro hc
    have h2 := congrArg List.length hc
    rw [hlen_in] at h2
    norm_num [CALIBRATION_CHUNK_SAMPLES] at h2
  have h2 : c2_input.length ≤ CALIBRATION_CHUNK_SAMPLES := le_of_eq hlen_in
  have hq : calculate_rms_sq c2_input < PRE_CALIBRATION_QUIET_THRESHOLD_SQ := by
    unfold c2_input
    rw [calculate_rms_sq_replicate_zero]
    norm_num [PRE_CALIBRATION_QUIET_THRESHOLD_SQ]
  have hc : CALIBRATION_SAMPLES ≤ c2_state.calibration_samples.length + c2_input.length := by
    rw [hlen_cal, hlen_in]
    norm_num [CALIBRATION_SAMPLES, CALIBRATION_CHUNK_SAMPLES]
  have hres : c2_state.add_samples c2_input = c2_state.calib_loop c2_input := by
    unfold LiveTranscriber.add_samples
    rw [if_neg (by simp [c2_state, LiveTranscriber.new])]
  refine ⟨?_, ?_, ?_, ?_⟩
  · rw [hlen_cal]
    norm_num [CALIBRATION_SAMPLES]
  · rw [hlen_in]
    norm_num [CALIBRATION_CHUNK_SAMPLES]
  · rw [hres, calib_loop_one_chunk_complete c2_state c2_input h1 h2 hq hc]
  · rw [hres, calib_loop_one_chunk_complete c2_state c2_input h1 h2 hq hc]
    exact rfl

/-- C2 (amended): when `add_samples` completes calibration during a call,
it does so at the end of a 100 ms chunk (the cut `k` reported by
`completionCut`); exactly the input samples after that chunk boundary —
not after the exact sample at which the 3-second target is crossed — are
pushed through to the main buffer, and the step counter advances by their
number; when no chunk completes calibration, nothing reaches the buffer. -/
theorem c2_push_through_after_triggering_chunk (st : LiveTranscriber)
    (samples : List ℚ) (h : st.calibrated = false) :
    (∀ k, completionCut st.calibration_samples.length samples = some k →
      k ≤ samples.length ∧
      (st.add_samples samples).calibrated = true ∧
      (st.add_samples samples).buffer = st.buffer ++ samples.drop k ∧
      (st.add_samples samples).samples_since_last_process
        = st.samples_since_last_process + (samples.length - k)) ∧
    (completionCut st.calibration_samples.length samples = none →
      (st.add_samples samples).calibrated = false ∧
      (st.add_samples samples).buffer = st.buffer) := by
  have hadd : st.add_samples samples = st.calib_loop samples := by
    unfold LiveTranscriber.add_samples
    rw [if_neg (by simp [h])]
  have hcut := calib_loop_cut samples st h
  rw [hadd]
  constructor
  · intro k hk
    obtain ⟨g0, g1, g2, g3, _⟩ := hcut.2 k hk
    exact ⟨g0, g1, g2, g3⟩
  · intro hn
    obtain ⟨g1, _, g3, _⟩ := hcut.1 hn
    exact ⟨g1, g3⟩

/-- Witness for the amended C2 at the concrete state of the
counterexample: the cut is at 1600 (the chunk end), and the buffer gains
exactly `c2_input.drop 1600 = []`. -/
theorem c2_push_through_witness :
    (c2_state.calibrated = false ∧
      completionCut c2_state.calibration_samples.length c2_input
        = some c2_input.length) ∧
    ((c2_state.add_samples c2_input).calibrated = true ∧
      (c2_state.add_samples c2_input).buffer
        = c2_state.buffer ++ c2_input.drop c2_input.length) := by
  have hlen_cal : c2_state.calibration_samples.length = CALIBRATION_SAMPLES - 1000 := by
    simp only [c2_state]
    rw [List.length_replicate]
  have hlen_in : c2_input.length = CALIBRATION_CHUNK_SAMPLES := by
    simp only [c2_input]
    rw [List.length_replicate]
  have h1 : c2_input ≠ [] := by
    intro hc
    have h2 := congrArg List.length hc
    rw [hlen_in] at h2
    norm_num [CALIBRATION_CHUNK_SAMPLES] at h2
  have hq : calculate_rms_sq c2_input < PRE_CALIBRATION_QUIET_THRESHOLD_SQ := by
    unfold c2_input
    rw [calculate_rms_sq_replicate_zero]
    norm_num [PRE_CALIBRATION_QUIET_THRESHOLD_SQ]
  have hc : CALIBRATION_SAMPLES ≤ c2_state.calibration_samples.length + c2_input.length := by
    rw [hlen_cal, hlen_in]
    norm_num [CALIBRATION_SAMPLES, CALIBRATION_CHUNK_SAMPLES]
  have hcut := completionCut_one_chunk c2_state.calibration_samples.length
    c2_input h1 (le_of_eq hlen_in) hq hc
  have hmain := (c2_push_through_after_triggering_chunk c2_state c2_input rfl).1
    c2_input.length hcut
  exact ⟨⟨rfl, hcut⟩, hmain.2.1, hmain.2.2.1⟩

/-- C6: in every reachable state, once calibrated the squared VAD threshold
is at least 0.02² = 1/2500; `process` never changes the threshold or the
calibrated flag; `add_samples` on a calibrated engine never changes the
threshold; while uncalibrated the threshold is unchanged unless the call
completes calibration, in which case it is set (once) to
`max(calculate_rms_sq b * 9, 1/2500)` — the squared form of
`max(ambient_rms * MULTIPLIER, MIN_THRESHOLD)` — where `b` is exactly the
calibration buffer at the moment of completion (the accumulated contiguous
quiet run, of at least 3 s, reported by the mirror `completionAmbient`), so
`calculate_rms_sq b` is the squared `ambient_rms = RMS(calibration_buffer)`;
and only `clear` resets the flag and the threshold (back to 1/2500). -/
theorem c6_threshold_invariant (st : LiveTranscriber) (hr : Reachable st) :
    (st.calibrated = true → MIN_VAD_THRESHOLD_SQ ≤ st.vad_threshold_sq) ∧
    (∀ o, (st.process o).2.vad_threshold_sq = st.vad_threshold_sq ∧
      (st.process o).2.calibrated = st.calibrated) ∧
    (st.calibrated = true → ∀ s,
      (st.add_samples s).vad_threshold_sq = st.vad_threshold_sq ∧
      (st.add_samples s).calibrated = true) ∧
    (st.calibrated = false → ∀ s,
      ((st.add_samples s).calibrated = false →
        (st.add_samples s).vad_threshold_sq = st.vad_threshold_sq) ∧
      ((st.add_samples s).calibrated = true →
        ∃ b : List ℚ, completionAmbient st.calibration_samples s = some b ∧
          CALIBRATION_SAMPLES ≤ b.length ∧
          (st.add_samples s).vad_threshold_sq
            = max (calculate_rms_sq b * VAD_MULTIPLIER_SQ) MIN_VAD_THRESHOLD_SQ)) ∧
    (st.clear.calibrated = false ∧
      st.clear.vad_threshold_sq = MIN_VAD_THRESHOLD_SQ) := by
  have main : ∀ st2 : LiveTranscriber, Reachable st2 →
      st2.calibrated = true → MIN_VAD_THRESHOLD_SQ ≤ st2.vad_threshold_sq := by
    intro st2 hr2
    induction hr2 with
    | init =>
      intro hc
      simp [LiveTranscriber.new] at hc
    | add st3 s hst ih =>
      cases hcal : st3.calibrated with
      | true =>
        have heq : st3.add_samples s =
            { st3 with
              buffer := st3.buffer ++ s
              samples_since_last_process :=
                st3.samples_since_last_process + s.length } := by
          unfold LiveTranscriber.add_samples
          rw [if_pos hcal]
        rw [heq]
        intro _
        exact ih hcal
      | false =>
        have heq : st3.add_samples s = st3.calib_loop s := by
          unfold LiveTranscriber.add_samples
          rw [if_neg (by simp [hcal])]
        rw [heq]
        intro hc
        rcases hcase : completionCut st3.calibration_samples.length s with _ | k
        · have hfalse := ((calib_loop_cut s st3 hcal).1 hcase).1
          rw [hfalse] at hc
          cases hc
        · obtain ⟨a, _, hthr⟩ :=
            ((calib_loop_cut s st3 hcal).2 k hcase).2.2.2.2
          rw [hthr]
          exact le_max_right _ _
    | proc st3 o hst ih =>
      intro hc
      have hp := process_preserves o st3
      rw [hp.1]
      rw [hp.2.1] at hc
      exact ih hc
    | clr st3 hst ih =>
      intro hc
      simp [LiveTranscriber.clear] at hc
  refine ⟨main st hr, ?_, ?_, ?_, ?_⟩
  · intro o
    exact ⟨(process_preserves o st).1, (process_preserves o st).2.1⟩
  · intro hcal s
    have heq : st.add_samples s =
        { st with
          buffer := st.buffer ++ s
          samples_since_last_process :=
            st.samples_since_last_process + s.length } := by
      unfold LiveTranscriber.add_samples
      rw [if_pos hcal]
    rw [heq]
    exact ⟨rfl, hcal⟩
  · intro hcal s
    have heq : st.add_samples s = st.calib_loop s := by
      unfold LiveTranscriber.add_samples
      rw [if_neg (by simp [hcal])]
    rw [heq]
    have hamb := calib_loop_ambient s st hcal
    constructor
    · intro hfalse
      rcases hcase : completionAmbient st.calibration_samples s with _ | b
      · exact (hamb.1 hcase).2
      · have htrue := (hamb.2 b hcase).1
        rw [htrue] at hfalse
        cases hfalse
    · intro htrue
      rcases hcase : completionAmbient st.calibration_samples s with _ | b
      · have hfalse := (hamb.1 hcase).1
        rw [hfalse] at htrue
        cases htrue
      · exact ⟨b, rfl, (hamb.2 b hcase).2.2, (hamb.2 b hcase).2.1⟩
  · exact ⟨rfl, by norm_num [LiveTranscriber.clear, MIN_VAD_THRESHOLD_SQ]⟩

/-- Witness for C6 at the concrete reachable initial state. -/
theorem c6_threshold_invariant_witness :
    Reachable LiveTranscriber.new ∧
    (LiveTranscriber.new.calibrated = true →
      MIN_VAD_THRESHOLD_SQ ≤ LiveTranscriber.new.vad_threshold_sq) ∧
    (LiveTranscriber.new.clear.calibrated = false ∧
      LiveTranscriber.new.clear.vad_threshold_sq = MIN_VAD_THRESHOLD_SQ) :=
  ⟨Reachable.init, (c6_threshold_invariant _ Reachable.init).1,
    (c6_threshold_invariant _ Reachable.init).2.2.2.2⟩

/-- A calibrated state with one silent buffered sample and pending
tentative text "hi", witnessing C3. -/
def c3_state : LiveTranscriber :=
  { LiveTranscriber.new with
    buffer := [0], calibrated := true, current_text := "hi" }

/-- A benign oracle (never consulted on the silence path of C3). -/
def c3_oracle : List ℚ → Except String (List String) :=
  fun _ => Except.ok []

/-- Witness for C3 at `c3_state`: two silent cycles return `Ok(false)` and
the third commits with `Ok(true)`. -/
theorem c3_silence_commit_witness :
    (c3_state.calibrated = true ∧ c3_state.buffer ≠ [] ∧
      c3_state.current_text ≠ "" ∧ c3_state.silence_count = 0 ∧
      calculate_rms_sq (vad_window c3_state.buffer) < c3_state.vad_threshold_sq) ∧
    ((c3_state.process c3_oracle).1 = Except.ok false ∧
      ((c3_state.process c3_oracle).2.process c3_oracle).1 = Except.ok false ∧
      (((c3_state.process c3_oracle).2.process c3_oracle).2.process c3_oracle).1
        = Except.ok true ∧
      (((c3_state.process c3_oracle).2.process c3_oracle).2.process c3_oracle).2.buffer
        = []) := by
  have hb : c3_state.buffer ≠ [] := by
    simp [c3_state]
  have hct : c3_state.current_text ≠ "" := by
    decide
  have hs : calculate_rms_sq (vad_window c3_state.buffer)
      < c3_state.vad_threshold_sq := by
    norm_num [c3_state, LiveTranscriber.new, vad_window, STEP_SAMPLES,
      calculate_rms_sq]
  have hfull := c3_silence_commit c3_oracle c3_state rfl hb hct rfl hs
  exact ⟨⟨rfl, hb, hct, rfl, hs⟩, hfull.1, hfull.2.1, hfull.2.2.1, hfull.2.2.2.1⟩
